import Mathlib

/-!
# Verification of `distributed/membership.go` (aresdb)

Shallow embedding of the membership manager: `Connect`, `Disconnect`, and
the schema-sync background loop. Stateful Go code is modelled as explicit
state-passing functions; every external call (ZooKeeper connect/create,
`os.Hostname`, `FetchApplySchema`) is resolved by an `Env` record of call
results, and each such call is additionally recorded in an effect trace so
that I/O ordering and absence-of-I/O properties can be stated.
-/

/-- Configuration subtree `cfg.Clients.ZK` (endpoint list and timeout). -/
structure ZKCfg where
  ZKs : String
  TimeoutSeconds : Nat
deriving Repr

/-- Configuration subtree `cfg.Clients`. -/
structure ClientsCfg where
  ZK : ZKCfg
deriving Repr

/-- Configuration subtree `cfg.Cluster` (cluster and instance identity). -/
structure ClusterCfg where
  ClusterName : String
  InstanceName : String
deriving Repr

/-- The slice of `common.AresServerConfig` read by the membership manager. -/
structure AresServerConfig where
  Port : Int
  Cluster : ClusterCfg
  Clients : ClientsCfg
deriving Repr

/-- The `Instance` identity record published to the coordination service. -/
structure Instance where
  Name : String
  Host : String
  Port : Int
deriving Repr, DecidableEq

/-- JSON values, as far as the payload of the presence node needs them. -/
inductive Json where
  | str : String → Json
  | num : Int → Json
  | obj : List (String × Json) → Json
deriving Repr

/-- Embedding of `json.Marshal` on an `Instance` value: Go's `encoding/json`
serializes exported struct fields in declaration order (`Name`, `Host`,
`Port`); for a struct of strings and an int it cannot fail. -/
def marshalInstance (i : Instance) : Json :=
  Json.obj [("Name", Json.str i.Name), ("Host", Json.str i.Host), ("Port", Json.num i.Port)]

/-- Embedding of `json.Unmarshal` of node content into an `Instance`. -/
def unmarshalInstance : Json → Option Instance
  | Json.obj [("Name", Json.str n), ("Host", Json.str h), ("Port", Json.num p)] =>
      some ⟨n, h, p⟩
  | _ => none

/-- One entry of a ZooKeeper ACL, as in `github.com/samuel/go-zookeeper/zk`. -/
structure ACL where
  Perms : Int
  Scheme : String
  ID : String
deriving Repr, DecidableEq

/-- `zk.PermAll = PermRead|PermWrite|PermCreate|PermDelete|PermAdmin = 0x1f`. -/
def PermAll : Int := 31

/-- `zk.WorldACL(perms)`: a single-entry ACL open to everyone. -/
def WorldACL (perms : Int) : List ACL := [⟨perms, "world", "anyone"⟩]

/-- `zk.FlagEphemeral = 1`. -/
def FlagEphemeral : Int := 1

/-- Go errors that the membership manager can observe or return. The
string-carrying constructors stand for distinct library error values. -/
inductive GoError where
  | errInvalidInstanceName
  | hostnameError (msg : String)
  | zkConnectError (msg : String)
  | zkCreateError (msg : String)
  | schemaFetchError (msg : String)
deriving Repr, DecidableEq

/-- Observable coordination-service / job side effects, in program order.
`zkDelete` and `zkClose` are in the vocabulary so that their absence from a
`Connect` trace (no rollback) is expressible. -/
inductive Effect where
  | zkConnect (servers : List String) (timeoutSeconds : Nat)
  | zkCreate (path : String) (data : Json) (flags : Int) (acl : List ACL)
  | zkDelete (path : String)
  | zkClose
  | fetchApplySchema (initial : Bool)
  | startRunLoop
  | stopJob

/-- Recognizer for session-creation effects. -/
def isZkConnect : Effect → Bool
  | Effect.zkConnect _ _ => true
  | _ => false

/-- Recognizer for node-creation effects. -/
def isZkCreate : Effect → Bool
  | Effect.zkCreate _ _ _ _ => true
  | _ => false

/-- The `SchemaFetchJob` handle held by the manager. The metastore, the
validator and the ZK connection passed to `NewSchemaFetchJob` are opaque
collaborators; only the cluster name is observable identity. -/
structure SchemaFetchJob where
  clusterName : String
deriving Repr, DecidableEq

/-- The fields of `membershipManagerImpl`: configuration, the optional ZK
session handle (`*zk.Conn`, a nil-able pointer, modelled as `Option` over an
abstract handle id), and the optional schema-fetch job handle. -/
structure MembershipManager where
  cfg : AresServerConfig
  zkc : Option Nat
  schemaFetchJob : Option SchemaFetchJob
deriving Repr

/-- `NewMembershipManager`: both handle fields start nil. -/
def NewMembershipManager (cfg : AresServerConfig) : MembershipManager :=
  { cfg := cfg, zkc := none, schemaFetchJob := none }

/-- Results of the external calls a single `Connect` run can make. -/
structure Env where
  zkConnect : Except GoError Nat
  hostname : Except GoError String
  zkCreate : Except GoError String
  fetchApplyInitial : Except GoError Unit

/-- Result of one `Connect` run: final manager state, returned error (if
any), and the trace of external effects performed before returning. -/
structure ConnectResult where
  state : MembershipManager
  err : Option GoError
  trace : List Effect

/-- The `fmt.Sprintf("/ares_controller/%s/instances/%s", ...)` node path. -/
def pathFormat (clusterName instanceName : String) : String :=
  "/ares_controller/" ++ clusterName ++ "/instances/" ++ instanceName

/-- The session-creation effect of `initZKConnection`: `zk.Connect` on the
comma-split endpoint list with the configured timeout. -/
def connEff (mm : MembershipManager) : Effect :=
  Effect.zkConnect (mm.cfg.Clients.ZK.ZKs.splitOn ",") mm.cfg.Clients.ZK.TimeoutSeconds

/-- Embedding of `membershipManagerImpl.initZKConnection`: split the
endpoint string on commas, call `zk.Connect`, store the returned handle
(nil on failure) in `mm.zkc`, return the error. -/
def initZKConnection (mm : MembershipManager) (env : Env) :
    MembershipManager × Option GoError × List Effect :=
  match env.zkConnect with
  | Except.ok c => ({ mm with zkc := some c }, none, [connEff mm])
  | Except.error e => ({ mm with zkc := none }, some e, [connEff mm])

/-- The `zkc.Create` call of `Connect`: path from `fmt.Sprintf`, payload
from `json.Marshal` on the `Instance` built from configured name, resolved
host and configured port, flags `zk.FlagEphemeral`, ACL
`zk.WorldACL(zk.PermAll)`. -/
def createEffOf (mm : MembershipManager) (host : String) : Effect :=
  Effect.zkCreate
    (pathFormat mm.cfg.Cluster.ClusterName mm.cfg.Cluster.InstanceName)
    (marshalInstance ⟨mm.cfg.Cluster.InstanceName, host, mm.cfg.Port⟩)
    FlagEphemeral (WorldACL PermAll)

/-- Embedding of the body of `Connect` after the `mm.zkc == nil` block:
instance-name check, `os.Hostname`, payload marshalling, `zkc.Create` with
the ephemeral flag and world ACL, `NewSchemaFetchJob`,
`FetchApplySchema(true)`, and `go Run()`. `tr` is the trace accumulated by
the session step. -/
def connectAfterSession (mm : MembershipManager) (env : Env) (tr : List Effect) :
    ConnectResult :=
  if mm.cfg.Cluster.InstanceName = "" then
    ⟨mm, some GoError.errInvalidInstanceName, tr⟩
  else
    match env.hostname with
    | Except.error e => ⟨mm, some e, tr⟩
    | Except.ok hostName =>
      match env.zkCreate with
      | Except.error e => ⟨mm, some e, tr ++ [createEffOf mm hostName]⟩
      | Except.ok _ =>
        let mm2 : MembershipManager :=
          { mm with schemaFetchJob := some ⟨mm.cfg.Cluster.ClusterName⟩ }
        match env.fetchApplyInitial with
        | Except.error e =>
            ⟨mm2, some e, tr ++ [createEffOf mm hostName, Effect.fetchApplySchema true]⟩
        | Except.ok _ =>
            ⟨mm2, none,
              tr ++ [createEffOf mm hostName, Effect.fetchApplySchema true,
                     Effect.startRunLoop]⟩

/-- Embedding of `membershipManagerImpl.Connect`: create a ZK session only
if `mm.zkc` is nil, then proceed with joining the cluster. -/
def Connect (mm : MembershipManager) (env : Env) : ConnectResult :=
  match mm.zkc with
  | some _ => connectAfterSession mm env []
  | none =>
    match initZKConnection mm env with
    | (mm1, some e, tr) => ⟨mm1, some e, tr⟩
    | (mm1, none, tr) => connectAfterSession mm1 env tr

/-- The nil-pointer dereference a `Disconnect` call can panic with. -/
inductive NilPanic where
  | nilZkConn
  | nilSchemaFetchJob
deriving Repr, DecidableEq

/-- Embedding of `membershipManagerImpl.Disconnect`: `mm.zkc.Close()` then
`mm.schemaFetchJob.Stop()`, with no nil guard on either field. A call on a
nil `*zk.Conn` panics inside `Close` (it closes the connection's quit
channel), and a call on a nil `*SchemaFetchJob` panics inside `Stop` (it
signals the job's stop channel, per the spec's stop-channel design), so a
nil handle yields a panic carrying the effects performed up to that point;
the manager's fields are not mutated on the normal path. -/
def Disconnect (mm : MembershipManager) :
    Except (NilPanic × List Effect) (MembershipManager × List Effect) :=
  match mm.zkc with
  | none => Except.error (NilPanic.nilZkConn, [])
  | some _ =>
    match mm.schemaFetchJob with
    | none => Except.error (NilPanic.nilSchemaFetchJob, [Effect.zkClose])
    | some _ => Except.ok (mm, [Effect.zkClose, Effect.stopJob])

/-- One observable event of a loop iteration of the background sync task. -/
inductive IterEvent where
  | fetchOk (i : Nat)
  | fetchErr (i : Nat) (e : GoError)
deriving Repr, DecidableEq

/-- The event iteration `i` produces, given the per-iteration outcomes of
`FetchApplySchema(false)`. -/
def eventAt (results : Nat → Except GoError Unit) (i : Nat) : IterEvent :=
  match results i with
  | Except.ok _ => IterEvent.fetchOk i
  | Except.error e => IterEvent.fetchErr i e

/-- Modelled from the spec: `SchemaFetchJob.Run` is not under `src/` (only
its call sites are). Per the spec it loops on a fixed interval invoking
`FetchApplySchema(false)`, reports errors without terminating, and exits
only when `Stop` is invoked. `Run results n` is the list of iteration
events produced when `Stop` arrives after `n` intervals; `results i` is the
outcome of the fetch at iteration `i`. -/
def Run (results : Nat → Except GoError Unit) : Nat → List IterEvent
  | 0 => []
  | n + 1 => Run results n ++ [eventAt results n]

/-! ## Concrete fixtures (used by counterexamples and witnesses) -/

/-- Configuration with cluster `c1`, instance `n1`, port 8080. -/
def cfg1 : AresServerConfig :=
  { Port := 8080
    Cluster := { ClusterName := "c1", InstanceName := "n1" }
    Clients := { ZK := { ZKs := "zk1,zk2", TimeoutSeconds := 5 } } }

/-- Same configuration with an empty instance name. -/
def cfgEmptyName : AresServerConfig :=
  { cfg1 with Cluster := { ClusterName := "c1", InstanceName := "" } }

/-- A fresh manager (both handles nil) on `cfg1`. -/
def mmFresh : MembershipManager := NewMembershipManager cfg1

/-- A fresh manager on the empty-instance-name configuration. -/
def mmEmptyName : MembershipManager := NewMembershipManager cfgEmptyName

/-- A manager on `cfg1` that already holds session handle 7. -/
def mmWithSession : MembershipManager :=
  { cfg := cfg1, zkc := some 7, schemaFetchJob := none }

/-- An environment where every external call succeeds. -/
def envOK : Env :=
  { zkConnect := Except.ok 1
    hostname := Except.ok "h1"
    zkCreate := Except.ok "/ares_controller/c1/instances/n1"
    fetchApplyInitial := Except.ok () }

/-- An environment where only the bootstrap schema fetch fails. -/
def envFetchFail : Env :=
  { envOK with fetchApplyInitial := Except.error (GoError.schemaFetchError "boom") }

/-- An environment where only node creation fails. -/
def envCreateFail : Env :=
  { envOK with zkCreate := Except.error (GoError.zkCreateError "node exists") }


/-! ## Shared characterization lemmas -/

/-- Exhaustive characterization of `connectAfterSession`: its outcome is one
of five shapes, fixed by where (if anywhere) the run fails. -/
lemma connectAfterSession_cases (mm : MembershipManager) (env : Env) (tr : List Effect) :
    (mm.cfg.Cluster.InstanceName = "" ∧
      connectAfterSession mm env tr = ⟨mm, some GoError.errInvalidInstanceName, tr⟩) ∨
    (mm.cfg.Cluster.InstanceName ≠ "" ∧ ∃ e, env.hostname = Except.error e ∧
      connectAfterSession mm env tr = ⟨mm, some e, tr⟩) ∨
    (mm.cfg.Cluster.InstanceName ≠ "" ∧ ∃ host e,
      env.hostname = Except.ok host ∧ env.zkCreate = Except.error e ∧
      connectAfterSession mm env tr = ⟨mm, some e, tr ++ [createEffOf mm host]⟩) ∨
    (mm.cfg.Cluster.InstanceName ≠ "" ∧ ∃ host p e,
      env.hostname = Except.ok host ∧ env.zkCreate = Except.ok p ∧
      env.fetchApplyInitial = Except.error e ∧
      connectAfterSession mm env tr =
        ⟨{ mm with schemaFetchJob := some ⟨mm.cfg.Cluster.ClusterName⟩ }, some e,
          tr ++ [createEffOf mm host, Effect.fetchApplySchema true]⟩) ∨
    (mm.cfg.Cluster.InstanceName ≠ "" ∧ ∃ host p,
      env.hostname = Except.ok host ∧ env.zkCreate = Except.ok p ∧
      env.fetchApplyInitial = Except.ok () ∧
      connectAfterSession mm env tr =
        ⟨{ mm with schemaFetchJob := some ⟨mm.cfg.Cluster.ClusterName⟩ }, none,
          tr ++ [createEffOf mm host, Effect.fetchApplySchema true,
                 Effect.startRunLoop]⟩) := by
  by_cases hn : mm.cfg.Cluster.InstanceName = ""
  · exact Or.inl ⟨hn, by simp [connectAfterSession, hn]⟩
  · rcases hh : env.hostname with e | host
    · exact Or.inr (Or.inl ⟨hn, e, rfl, by simp [connectAfterSession, hn, hh]⟩)
    · rcases hc : env.zkCreate with e | p
      · exact Or.inr (Or.inr (Or.inl
          ⟨hn, host, e, rfl, rfl, by simp [connectAfterSession, hn, hh, hc]⟩))
      · rcases hf : env.fetchApplyInitial with e | u
        · exact Or.inr (Or.inr (Or.inr (Or.inl
            ⟨hn, host, p, e, rfl, rfl, rfl,
              by simp [connectAfterSession, hn, hh, hc, hf]⟩)))
        · exact Or.inr (Or.inr (Or.inr (Or.inr
            ⟨hn, host, p, rfl, rfl, rfl,
              by simp [connectAfterSession, hn, hh, hc, hf]⟩)))

/-- Exhaustive characterization of `Connect`: either the session step fails
(only possible from a nil handle), or the run continues as
`connectAfterSession` with the session established and the trace prefix
recording whether a session was created. -/
lemma Connect_cases (mm : MembershipManager) (env : Env) :
    (mm.zkc = none ∧ ∃ e, env.zkConnect = Except.error e ∧
      Connect mm env = ⟨{ mm with zkc := none }, some e, [connEff mm]⟩) ∨
    (mm.zkc = none ∧ ∃ c, env.zkConnect = Except.ok c ∧
      Connect mm env = connectAfterSession { mm with zkc := some c } env [connEff mm]) ∨
    (∃ c, mm.zkc = some c ∧ Connect mm env = connectAfterSession mm env []) := by
  rcases hz : mm.zkc with _ | c
  · rcases hc : env.zkConnect with e | c
    · exact Or.inl ⟨rfl, e, rfl, by simp [Connect, initZKConnection, hz, hc]⟩
    · exact Or.inr (Or.inl ⟨rfl, c, rfl, by simp [Connect, initZKConnection, hz, hc]⟩)
  · exact Or.inr (Or.inr ⟨c, rfl, by simp [Connect, hz]⟩)

/-- Serialization round-trip: unmarshalling a marshalled `Instance` gives
back exactly the original record. -/
lemma unmarshalInstance_marshalInstance (i : Instance) :
    unmarshalInstance (marshalInstance i) = some i := rfl

/-- Every effect in a `connectAfterSession` trace is either inherited from
the session step or one of node-create, bootstrap fetch, run-loop launch. -/
lemma connectAfterSession_mem (mm : MembershipManager) (env : Env) (tr : List Effect)
    (eff : Effect) (h : eff ∈ (connectAfterSession mm env tr).trace) :
    eff ∈ tr ∨ (∃ host, eff = createEffOf mm host) ∨
      eff = Effect.fetchApplySchema true ∨ eff = Effect.startRunLoop := by
  rcases connectAfterSession_cases mm env tr with
    ⟨hn, hEq⟩ | ⟨hn, e, hh, hEq⟩ | ⟨hn, host, e, hh, hc, hEq⟩ |
    ⟨hn, host, p, e, hh, hc, hf, hEq⟩ | ⟨hn, host, p, hh, hc, hf, hEq⟩ <;>
    rw [hEq] at h <;> simp only [List.mem_append, List.mem_cons,
      List.mem_singleton, List.not_mem_nil, or_false] at h <;> tauto

/-- A `connectAfterSession` run adds no session-creation effect and keeps
the session handle untouched. -/
lemma connectAfterSession_frame (mm : MembershipManager) (env : Env) (tr : List Effect) :
    (connectAfterSession mm env tr).trace.countP isZkConnect = tr.countP isZkConnect ∧
    (connectAfterSession mm env tr).state.zkc = mm.zkc := by
  rcases connectAfterSession_cases mm env tr with
    ⟨hn, hEq⟩ | ⟨hn, e, hh, hEq⟩ | ⟨hn, host, e, hh, hc, hEq⟩ |
    ⟨hn, host, p, e, hh, hc, hf, hEq⟩ | ⟨hn, host, p, hh, hc, hf, hEq⟩ <;>
    rw [hEq] <;>
    simp [List.countP_append, List.countP_cons, createEffOf, isZkConnect]

/-- Every iteration scheduled before `Stop` arrives actually runs: the
event list of `Run` has exactly one entry per interval. -/
lemma Run_length (results : Nat → Except GoError Unit) (n : Nat) :
    (Run results n).length = n := by
  induction n with
  | zero => rfl
  | succ n ih => simp [Run, ih]

/-- The event of iteration `j` is exactly what that iteration's fetch
outcome dictates, regardless of the outcomes of other iterations. -/
lemma Run_getElem (results : Nat → Except GoError Unit) (n j : Nat) (h : j < n) :
    (Run results n)[j]? = some (eventAt results j) := by
  induction n with
  | zero => omega
  | succ n ih =>
    by_cases hj : j < n
    · rw [Run, List.getElem?_append_left (by rw [Run_length]; exact hj)]
      exact ih hj
    · have hjn : j = n := by omega
      subst hjn
      rw [Run, List.getElem?_append_right (by rw [Run_length])]
      simp [Run_length]

/-! ## Claim theorems -/

/-- C1 counterexample: on a fresh manager (nil session handle) with an
empty instance name and a coordination service that accepts connections,
`Connect` does return the invalid-instance-name error, but it has already
performed coordination-service I/O: the session-creation call (`zk.Connect`
in `initZKConnection`) runs before the instance-name check, so exactly one
session-creation effect is in the trace. -/
theorem connect_emptyName_creates_session :
    (Connect mmEmptyName envOK).err = some GoError.errInvalidInstanceName ∧
    (Connect mmEmptyName envOK).trace.countP isZkConnect = 1 := ⟨rfl, rfl⟩

/-- C1 (amended): for every configuration with an empty instance name,
provided the session step does not itself fail (a session already exists or
the session-creation call succeeds), `Connect` returns the
invalid-instance-name error and issues no node-create call, no schema
fetch, and no run-loop launch before returning; however, when no session
exists, a coordination-service session is still created first, because the
session step precedes the name check. -/
theorem connect_emptyName_no_create (mm : MembershipManager) (env : Env)
    (hname : mm.cfg.Cluster.InstanceName = "")
    (hsess : mm.zkc ≠ none ∨ ∃ c, env.zkConnect = Except.ok c) :
    (Connect mm env).err = some GoError.errInvalidInstanceName ∧
    (Connect mm env).trace.countP isZkCreate = 0 ∧
    (∀ b, Effect.fetchApplySchema b ∉ (Connect mm env).trace) ∧
    Effect.startRunLoop ∉ (Connect mm env).trace := by
  rcases Connect_cases mm env with
    ⟨hz, e, hce, hEq⟩ | ⟨hz, c, hcc, hEq⟩ | ⟨c, hz, hEq⟩
  · rcases hsess with h | ⟨c, hc⟩
    · exact absurd hz h
    · rw [hce] at hc
      exact absurd hc (by simp)
  · rcases connectAfterSession_cases { mm with zkc := some c } env [connEff mm] with
      ⟨hn, hEq2⟩ | ⟨hn, _⟩ | ⟨hn, _⟩ | ⟨hn, _⟩ | ⟨hn, _⟩
    · rw [hEq, hEq2]
      refine ⟨rfl, ?_, ?_, ?_⟩ <;> simp [connEff, isZkCreate, List.countP_cons]
    all_goals exact absurd hname hn
  · rcases connectAfterSession_cases mm env [] with
      ⟨hn, hEq2⟩ | ⟨hn, _⟩ | ⟨hn, _⟩ | ⟨hn, _⟩ | ⟨hn, _⟩
    · rw [hEq, hEq2]
      exact ⟨rfl, rfl, by simp, by simp⟩
    all_goals exact absurd hname hn

/-- C1 witness: the amended statement at a manager that already holds a
session, with an empty instance name. -/
theorem connect_emptyName_no_create_witness :
    (Connect { cfg := cfgEmptyName, zkc := some 7, schemaFetchJob := none } envOK).err =
      some GoError.errInvalidInstanceName ∧
    (Connect { cfg := cfgEmptyName, zkc := some 7, schemaFetchJob := none } envOK).trace.countP
      isZkCreate = 0 ∧
    Effect.fetchApplySchema true ∉
      (Connect { cfg := cfgEmptyName, zkc := some 7, schemaFetchJob := none } envOK).trace ∧
    Effect.startRunLoop ∉
      (Connect { cfg := cfgEmptyName, zkc := some 7, schemaFetchJob := none } envOK).trace := by
  have h := connect_emptyName_no_create
    { cfg := cfgEmptyName, zkc := some 7, schemaFetchJob := none } envOK rfl
    (Or.inl (by simp))
  exact ⟨h.1, h.2.1, h.2.2.1 true, h.2.2.2⟩

/-- C2: every successful `Connect` issues exactly one node-create call, at
path `/ares_controller/{clusterName}/instances/{instanceName}`, with the
ephemeral flag and the world-readable all-permissions ACL. -/
theorem connect_creates_one_node (mm : MembershipManager) (env : Env)
    (h : (Connect mm env).err = none) :
    ∃ d, (Connect mm env).trace.filter isZkCreate =
      [Effect.zkCreate
        (pathFormat mm.cfg.Cluster.ClusterName mm.cfg.Cluster.InstanceName)
        d FlagEphemeral (WorldACL PermAll)] := by
  rcases Connect_cases mm env with
    ⟨hz, e, hce, hEq⟩ | ⟨hz, c, hcc, hEq⟩ | ⟨c, hz, hEq⟩
  · rw [hEq] at h
    simp at h
  · rcases connectAfterSession_cases { mm with zkc := some c } env [connEff mm] with
      ⟨hn, hEq2⟩ | ⟨hn, e, hh, hEq2⟩ | ⟨hn, host, e, hh, hc, hEq2⟩ |
      ⟨hn, host, p, e, hh, hc, hf, hEq2⟩ | ⟨hn, host, p, hh, hc, hf, hEq2⟩ <;>
      rw [hEq, hEq2] at h ⊢ <;> simp at h ⊢
    exact ⟨marshalInstance ⟨mm.cfg.Cluster.InstanceName, host, mm.cfg.Port⟩,
      by simp [connEff, createEffOf, isZkCreate]⟩
  · rcases connectAfterSession_cases mm env [] with
      ⟨hn, hEq2⟩ | ⟨hn, e, hh, hEq2⟩ | ⟨hn, host, e, hh, hc, hEq2⟩ |
      ⟨hn, host, p, e, hh, hc, hf, hEq2⟩ | ⟨hn, host, p, hh, hc, hf, hEq2⟩ <;>
      rw [hEq, hEq2] at h ⊢ <;> simp at h ⊢
    exact ⟨marshalInstance ⟨mm.cfg.Cluster.InstanceName, host, mm.cfg.Port⟩,
      by simp [createEffOf, isZkCreate]⟩

/-- C2 witness: the successful run on a fresh manager with `c1`/`n1`. -/
theorem connect_creates_one_node_witness :
    ∃ d, (Connect mmFresh envOK).trace.filter isZkCreate =
      [Effect.zkCreate
        (pathFormat mmFresh.cfg.Cluster.ClusterName mmFresh.cfg.Cluster.InstanceName)
        d FlagEphemeral (WorldACL PermAll)] :=
  connect_creates_one_node mmFresh envOK rfl

/-- C3: on every successful `Connect`, the node-create payload is the JSON
serialization of the `Instance` whose `Name` is the configured instance
name, `Host` the host name resolved at connect time, and `Port` the
configured server port; unmarshalling the payload yields exactly that
record. -/
theorem connect_payload_roundtrip (mm : MembershipManager) (env : Env)
    (h : (Connect mm env).err = none) :
    ∃ host, env.hostname = Except.ok host ∧
      (Connect mm env).trace.filter isZkCreate =
        [Effect.zkCreate
          (pathFormat mm.cfg.Cluster.ClusterName mm.cfg.Cluster.InstanceName)
          (marshalInstance ⟨mm.cfg.Cluster.InstanceName, host, mm.cfg.Port⟩)
          FlagEphemeral (WorldACL PermAll)] ∧
      unmarshalInstance
          (marshalInstance ⟨mm.cfg.Cluster.InstanceName, host, mm.cfg.Port⟩) =
        some ⟨mm.cfg.Cluster.InstanceName, host, mm.cfg.Port⟩ := by
  rcases Connect_cases mm env with
    ⟨hz, e, hce, hEq⟩ | ⟨hz, c, hcc, hEq⟩ | ⟨c, hz, hEq⟩
  · rw [hEq] at h
    simp at h
  · rcases connectAfterSession_cases { mm with zkc := some c } env [connEff mm] with
      ⟨hn, hEq2⟩ | ⟨hn, e, hh, hEq2⟩ | ⟨hn, host, e, hh, hc, hEq2⟩ |
      ⟨hn, host, p, e, hh, hc, hf, hEq2⟩ | ⟨hn, host, p, hh, hc, hf, hEq2⟩ <;>
      rw [hEq, hEq2] at h ⊢ <;> simp at h ⊢
    exact ⟨host, hh, by simp [connEff, createEffOf, isZkCreate], rfl⟩
  · rcases connectAfterSession_cases mm env [] with
      ⟨hn, hEq2⟩ | ⟨hn, e, hh, hEq2⟩ | ⟨hn, host, e, hh, hc, hEq2⟩ |
      ⟨hn, host, p, e, hh, hc, hf, hEq2⟩ | ⟨hn, host, p, hh, hc, hf, hEq2⟩ <;>
      rw [hEq, hEq2] at h ⊢ <;> simp at h ⊢
    exact ⟨host, hh, by simp [createEffOf, isZkCreate], rfl⟩

/-- C3 witness: the successful run on a fresh manager resolves host `h1`
and publishes `{Name: n1, Host: h1, Port: 8080}`. -/
theorem connect_payload_roundtrip_witness :
    ∃ host, envOK.hostname = Except.ok host ∧
      (Connect mmFresh envOK).trace.filter isZkCreate =
        [Effect.zkCreate
          (pathFormat mmFresh.cfg.Cluster.ClusterName mmFresh.cfg.Cluster.InstanceName)
          (marshalInstance ⟨mmFresh.cfg.Cluster.InstanceName, host, mmFresh.cfg.Port⟩)
          FlagEphemeral (WorldACL PermAll)] ∧
      unmarshalInstance
          (marshalInstance ⟨mmFresh.cfg.Cluster.InstanceName, host, mmFresh.cfg.Port⟩) =
        some ⟨mmFresh.cfg.Cluster.InstanceName, host, mmFresh.cfg.Port⟩ :=
  connect_payload_roundtrip mmFresh envOK rfl

/-- C4: whenever the synchronous bootstrap call `FetchApplySchema(true)` is
made and returns an error, `Connect` returns that same error unchanged and
the background sync loop is never started. -/
theorem connect_bootstrap_fetch_error (mm : MembershipManager) (env : Env) (e : GoError)
    (hcall : Effect.fetchApplySchema true ∈ (Connect mm env).trace)
    (hf : env.fetchApplyInitial = Except.error e) :
    (Connect mm env).err = some e ∧
    Effect.startRunLoop ∉ (Connect mm env).trace := by
  rcases Connect_cases mm env with
    ⟨hz, e', hce, hEq⟩ | ⟨hz, c, hcc, hEq⟩ | ⟨c, hz, hEq⟩
  · rw [hEq] at hcall
    simp [connEff] at hcall
  · rcases connectAfterSession_cases { mm with zkc := some c } env [connEff mm] with
      ⟨hn, hEq2⟩ | ⟨hn, e', hh, hEq2⟩ | ⟨hn, host, e', hh, hc, hEq2⟩ |
      ⟨hn, host, p, e', hh, hc, hf2, hEq2⟩ | ⟨hn, host, p, hh, hc, hf2, hEq2⟩ <;>
      rw [hEq, hEq2] at hcall ⊢ <;>
      simp [connEff, createEffOf] at hcall ⊢
    · rw [hf] at hf2
      simp only [Except.error.injEq] at hf2
      simp [hf2, connEff, createEffOf]
    · rw [hf] at hf2
      simp at hf2
  · rcases connectAfterSession_cases mm env [] with
      ⟨hn, hEq2⟩ | ⟨hn, e', hh, hEq2⟩ | ⟨hn, host, e', hh, hc, hEq2⟩ |
      ⟨hn, host, p, e', hh, hc, hf2, hEq2⟩ | ⟨hn, host, p, hh, hc, hf2, hEq2⟩ <;>
      rw [hEq, hEq2] at hcall ⊢ <;>
      simp [createEffOf] at hcall ⊢
    · rw [hf] at hf2
      simp only [Except.error.injEq] at hf2
      simp [hf2, connEff, createEffOf]
    · rw [hf] at hf2
      simp at hf2

/-- C4 witness: a run where everything up to the bootstrap fetch succeeds
and the fetch fails with a schema-fetch error. -/
theorem connect_bootstrap_fetch_error_witness :
    (Connect mmFresh envFetchFail).err = some (GoError.schemaFetchError "boom") ∧
    Effect.startRunLoop ∉ (Connect mmFresh envFetchFail).trace := by
  refine connect_bootstrap_fetch_error mmFresh envFetchFail
    (GoError.schemaFetchError "boom") ?_ rfl
  show Effect.fetchApplySchema true ∈
    [connEff mmFresh, createEffOf { mmFresh with zkc := some 1 } "h1",
     Effect.fetchApplySchema true]
  simp

/-- C5: `Connect` issues at most one session-creation call, and when the
manager already holds a session handle it creates none at all and keeps
the existing handle, so a manager never accumulates two sessions. -/
theorem connect_session_reuse (mm : MembershipManager) (env : Env) :
    (Connect mm env).trace.countP isZkConnect ≤ 1 ∧
    (∀ c, mm.zkc = some c →
      (Connect mm env).state.zkc = some c ∧
      (Connect mm env).trace.countP isZkConnect = 0) := by
  rcases Connect_cases mm env with
    ⟨hz, e, hce, hEq⟩ | ⟨hz, c, hcc, hEq⟩ | ⟨c, hz, hEq⟩
  · rw [hEq]
    exact ⟨by simp [connEff, isZkConnect, List.countP_cons],
      fun c hc => absurd (hz ▸ hc) (by simp)⟩
  · constructor
    · rw [hEq]
      have h := (connectAfterSession_frame { mm with zkc := some c } env [connEff mm]).1
      rw [h]
      simp [connEff, isZkConnect, List.countP_cons]
    · intro c' hc'
      rw [hz] at hc'
      exact absurd hc' (by simp)
  · have h := connectAfterSession_frame mm env []
    rw [hEq]
    refine ⟨by rw [h.1]; simp, fun c' hc' => ⟨by rw [h.2, hc'], by rw [h.1]; simp⟩⟩

/-- C5 witness: a manager that already holds session handle 7 keeps it and
creates no session. -/
theorem connect_session_reuse_witness :
    (Connect mmWithSession envOK).state.zkc = some 7 ∧
    (Connect mmWithSession envOK).trace.countP isZkConnect = 0 :=
  (connect_session_reuse mmWithSession envOK).2 7 rfl

/-- C6: after any successful `Connect`, `Disconnect` performs the session
close first and the job stop second, and returns normally (no panic; the
Go signature returns no error at all). -/
theorem disconnect_after_connect (mm : MembershipManager) (env : Env)
    (h : (Connect mm env).err = none) :
    Disconnect (Connect mm env).state =
      Except.ok ((Connect mm env).state, [Effect.zkClose, Effect.stopJob]) := by
  rcases Connect_cases mm env with
    ⟨hz, e, hce, hEq⟩ | ⟨hz, c, hcc, hEq⟩ | ⟨c, hz, hEq⟩
  · rw [hEq] at h
    simp at h
  · rcases connectAfterSession_cases { mm with zkc := some c } env [connEff mm] with
      ⟨hn, hEq2⟩ | ⟨hn, e, hh, hEq2⟩ | ⟨hn, host, e, hh, hc, hEq2⟩ |
      ⟨hn, host, p, e, hh, hc, hf, hEq2⟩ | ⟨hn, host, p, hh, hc, hf, hEq2⟩ <;>
      rw [hEq, hEq2] at h ⊢ <;> simp at h ⊢
    rfl
  · rcases connectAfterSession_cases mm env [] with
      ⟨hn, hEq2⟩ | ⟨hn, e, hh, hEq2⟩ | ⟨hn, host, e, hh, hc, hEq2⟩ |
      ⟨hn, host, p, e, hh, hc, hf, hEq2⟩ | ⟨hn, host, p, hh, hc, hf, hEq2⟩ <;>
      rw [hEq, hEq2] at h ⊢ <;> simp at h ⊢
    simp [Disconnect, hz]

/-- C6 witness: disconnecting the state produced by the successful run on a
fresh manager. -/
theorem disconnect_after_connect_witness :
    Disconnect (Connect mmFresh envOK).state =
      Except.ok ((Connect mmFresh envOK).state, [Effect.zkClose, Effect.stopJob]) :=
  disconnect_after_connect mmFresh envOK rfl

/-- C7: when `Connect` fails at any step after the session step succeeded,
the session handle remains set to that session, and the trace contains no
session close and no node delete — no rollback of partial state. -/
theorem connect_no_rollback (mm : MembershipManager) (env : Env) (c : Nat) (e : GoError)
    (hsess : mm.zkc = some c ∨ (mm.zkc = none ∧ env.zkConnect = Except.ok c))
    (_herr : (Connect mm env).err = some e) :
    (Connect mm env).state.zkc = some c ∧
    Effect.zkClose ∉ (Connect mm env).trace ∧
    (∀ p, Effect.zkDelete p ∉ (Connect mm env).trace) := by
  rcases Connect_cases mm env with
    ⟨hz, e', hce, hEq⟩ | ⟨hz, c', hcc, hEq⟩ | ⟨c', hz, hEq⟩
  · rcases hsess with h | ⟨_, h⟩
    · rw [hz] at h
      exact absurd h (by simp)
    · rw [hce] at h
      exact absurd h (by simp)
  · have hcc' : c' = c := by
      rcases hsess with h | ⟨_, h⟩
      · rw [hz] at h
        exact absurd h (by simp)
      · rw [hcc] at h
        exact (Except.ok.injEq _ _).mp h
    subst hcc'
    rw [hEq]
    refine ⟨(connectAfterSession_frame _ env _).2, ?_, ?_⟩
    · intro hmem
      rcases connectAfterSession_mem _ env _ _ hmem with h | ⟨host, h⟩ | h | h <;>
        simp [connEff, createEffOf] at h
    · intro p hmem
      rcases connectAfterSession_mem _ env _ _ hmem with h | ⟨host, h⟩ | h | h <;>
        simp [connEff, createEffOf] at h
  · have hcc' : c' = c := by
      rcases hsess with h | ⟨h, _⟩
      · rw [hz] at h
        exact (Option.some.injEq _ _).mp h
      · rw [hz] at h
        exact absurd h (by simp)
    subst hcc'
    rw [hEq]
    refine ⟨by rw [(connectAfterSession_frame mm env []).2, hz], ?_, ?_⟩
    · intro hmem
      rcases connectAfterSession_mem _ env _ _ hmem with h | ⟨host, h⟩ | h | h <;>
        simp [createEffOf] at h
    · intro p hmem
      rcases connectAfterSession_mem _ env _ _ hmem with h | ⟨host, h⟩ | h | h <;>
        simp [createEffOf] at h

/-- C7 witness: a run whose node-create call fails (name collision) leaves
the freshly created session handle in place and performs no close and no
delete of the presence path. -/
theorem connect_no_rollback_witness :
    (Connect mmFresh envCreateFail).state.zkc = some 1 ∧
    Effect.zkClose ∉ (Connect mmFresh envCreateFail).trace ∧
    Effect.zkDelete (pathFormat "c1" "n1") ∉ (Connect mmFresh envCreateFail).trace := by
  have h := connect_no_rollback mmFresh envCreateFail 1
    (GoError.zkCreateError "node exists") (Or.inr ⟨rfl, rfl⟩) rfl
  exact ⟨h.1, h.2.1, h.2.2 (pathFormat "c1" "n1")⟩

/-- C8: every successful `Connect` run's trace ends with the node create,
then the completed synchronous bootstrap fetch, then the run-loop launch,
in that order; all three precede the return, so `Connect` never reports
success with the bootstrap fetch still in flight. -/
theorem connect_success_ordering (mm : MembershipManager) (env : Env)
    (h : (Connect mm env).err = none) :
    ∃ t0 host, env.hostname = Except.ok host ∧
      (Connect mm env).trace =
        t0 ++ [createEffOf mm host, Effect.fetchApplySchema true,
               Effect.startRunLoop] := by
  rcases Connect_cases mm env with
    ⟨hz, e, hce, hEq⟩ | ⟨hz, c, hcc, hEq⟩ | ⟨c, hz, hEq⟩
  · rw [hEq] at h
    simp at h
  · rcases connectAfterSession_cases { mm with zkc := some c } env [connEff mm] with
      ⟨hn, hEq2⟩ | ⟨hn, e, hh, hEq2⟩ | ⟨hn, host, e, hh, hc, hEq2⟩ |
      ⟨hn, host, p, e, hh, hc, hf, hEq2⟩ | ⟨hn, host, p, hh, hc, hf, hEq2⟩ <;>
      rw [hEq, hEq2] at h ⊢ <;> simp at h ⊢
    exact ⟨[connEff mm], host, hh, rfl⟩
  · rcases connectAfterSession_cases mm env [] with
      ⟨hn, hEq2⟩ | ⟨hn, e, hh, hEq2⟩ | ⟨hn, host, e, hh, hc, hEq2⟩ |
      ⟨hn, host, p, e, hh, hc, hf, hEq2⟩ | ⟨hn, host, p, hh, hc, hf, hEq2⟩ <;>
      rw [hEq, hEq2] at h ⊢ <;> simp at h ⊢
    exact ⟨[], host, hh, rfl⟩

/-- C8 witness: the successful run on a fresh manager. -/
theorem connect_success_ordering_witness :
    ∃ t0 host, envOK.hostname = Except.ok host ∧
      (Connect mmFresh envOK).trace =
        t0 ++ [createEffOf mmFresh host, Effect.fetchApplySchema true,
               Effect.startRunLoop] :=
  connect_success_ordering mmFresh envOK rfl

/-- Per-iteration outcomes for the loop witness: the first fetch fails,
every later fetch succeeds. -/
def resultsFirstFails : Nat → Except GoError Unit := fun i =>
  if i = 0 then Except.error (GoError.schemaFetchError "e0") else Except.ok ()

/-- C9: an error returned by `FetchApplySchema(false)` at some loop
iteration does not terminate the background loop: that iteration merely
reports the error, every iteration scheduled before `Stop` still runs (one
event per interval), and in particular the next iteration still happens. -/
theorem run_loop_survives_errors (results : Nat → Except GoError Unit) (n i : Nat)
    (e : GoError) (hi : i < n) (he : results i = Except.error e) :
    (Run results n).length = n ∧
    (Run results n)[i]? = some (IterEvent.fetchErr i e) ∧
    (i + 1 < n → (Run results n)[i + 1]? = some (eventAt results (i + 1))) := by
  refine ⟨Run_length results n, ?_, fun h => Run_getElem results n (i + 1) h⟩
  rw [Run_getElem results n i hi]
  simp [eventAt, he]

/-- C9 witness: with a two-interval run whose first fetch fails, both
iterations run, the first reports the error, the second still happens. -/
theorem run_loop_survives_errors_witness :
    (Run resultsFirstFails 2).length = 2 ∧
    (Run resultsFirstFails 2)[0]? =
      some (IterEvent.fetchErr 0 (GoError.schemaFetchError "e0")) ∧
    (Run resultsFirstFails 2)[0 + 1]? = some (eventAt resultsFirstFails (0 + 1)) := by
  have h := run_loop_survives_errors resultsFirstFails 2 0
    (GoError.schemaFetchError "e0") (by omega) rfl
  exact ⟨h.1, h.2.1, h.2.2 (by omega)⟩

/-- C10: `Disconnect` guards neither handle: on a manager whose session was
never established (for instance fresh from `NewMembershipManager`, or any
state with a nil session handle) it dereferences the nil session handle
inside `Close`, and on a manager with a session but no job handle it
dereferences the nil task handle inside `Stop` after closing the session. -/
theorem disconnect_nil_deref (cfg : AresServerConfig) (c : Nat)
    (j : Option SchemaFetchJob) :
    Disconnect (NewMembershipManager cfg) = Except.error (NilPanic.nilZkConn, []) ∧
    Disconnect ⟨cfg, none, j⟩ = Except.error (NilPanic.nilZkConn, []) ∧
    Disconnect ⟨cfg, some c, none⟩ =
      Except.error (NilPanic.nilSchemaFetchJob, [Effect.zkClose]) :=
  ⟨rfl, rfl, rfl⟩
